import Mathlib

set_option maxRecDepth 4000

namespace CodeSync

/-!
Shallow embedding of the codesync repository's synchronization logic.

The client logic is taken from the utils segment of
src/src/components/FileListItem.tsx: `getLocalFiles`, `checkForConflicts`,
`updateFramerFile`, `syncLocalChangesToFramer`, `performSync`,
`getLocalPathFromFramerName`, `getFramerNameFromLocalPath`,
`performTwoWaySync`.  The server logic is taken from src/server/index.ts
(second generation): the `/local-changes` handler and the `/sync-directory`
handler.  The polling schedule is taken from the `setInterval` callbacks in
src/src/App.tsx and src/unnamed/part_004.

Remote-store calls (`setFileContent`, `unstable_createCodeFile`, `remove`)
are modelled as an explicit effect log of `RemoteOp` values together with
the updated remote file list; fallible fetches are modelled as `Option`
responses.  The happy path of the remote API is modelled (its exceptions
abort a pass wholesale and carry no per-file logic).
-/

/-- A Framer code file as returned by `getFramerCodeFiles` (src/src/types.ts
`CodeFile`): opaque id, name (the join key), and text content. -/
structure CodeFile where
  id : String
  name : String
  content : String
  deriving DecidableEq

/-- The kind of a watcher event (`type` field of `LocalFileChange` in
src/src/types.ts / `FileChange` in src/server/index.ts). -/
inductive ChangeKind where
  | add
  | change
  | unlink
  deriving DecidableEq

/-- A local watcher event (src/src/types.ts `LocalFileChange`); the
`timestamp` field is never read by the sync logic and is omitted. -/
structure LocalFileChange where
  type : ChangeKind
  path : String
  content : Option String
  deriving DecidableEq

/-- One entry of the conflicts array built by `checkForConflicts`. -/
structure Conflict where
  fileId : String
  localContent : String
  framerContent : String
  deriving DecidableEq

/-- One entry of the `resolvedConflicts` array recorded by
`handleResolveConflict` in src/unnamed/part_004. -/
structure ResolvedConflict where
  fileId : String
  keepLocal : Bool
  deriving DecidableEq

/-- A call issued against the remote store by `updateFramerFile`:
`existingFile.setFileContent`, `framer.unstable_createCodeFile`, or
`existingFile.remove`. -/
inductive RemoteOp where
  | setFileContent (fileId : String) (content : String)
  | createCodeFile (name : String) (content : String)
  | remove (fileId : String)
  deriving DecidableEq

/-- The `status` field of the TS `SyncStatus` record: "success" | "error". -/
inductive StatusKind where
  | success
  | error
  deriving DecidableEq

/-- The TS `SyncStatus` record (src/src/types.ts), restricted to the fields
the sync logic reads: `status` and the optional `conflicts` array. -/
structure SyncStatus where
  status : StatusKind
  conflicts : Option (List Conflict)
  deriving DecidableEq

/-- Outcome of one client pass: the returned `SyncStatus`, the log of remote
calls issued, the remote file list after those calls, and the server's
change queue after the pass. -/
structure SyncResult where
  status : SyncStatus
  ops : List RemoteOp
  files : List CodeFile
  pending : List LocalFileChange
  deriving DecidableEq

/-- Function `getLocalFiles` (FileListItem.tsx lines 253-264): fetches `/get-files`;
any failure is caught and the empty list is returned. The response is
modelled as `none` for a failed request. -/
def getLocalFiles (response : Option (List CodeFile)) : List CodeFile :=
  match response with
  | some files => files
  | none => []

/-- Function `checkForConflicts` (FileListItem.tsx lines 212-251): joins Framer files
with local files by name and collects every name present on both sides with
differing content; status is "error" iff the conflict list is non-empty.
The conflict list is always present on the returned record. -/
def checkForConflicts (framerFiles : List CodeFile) (localFiles : List CodeFile) :
    SyncStatus :=
  let conflicts := framerFiles.filterMap (fun framerFile =>
    match localFiles.find? (fun f => f.name == framerFile.name) with
    | some localFile =>
        if localFile.content ≠ framerFile.content then
          some ⟨framerFile.id, localFile.content, framerFile.content⟩
        else
          none
    | none => none)
  ⟨if conflicts.length > 0 then StatusKind.error else StatusKind.success,
   some conflicts⟩

/-- Function `updateFramerFile` (FileListItem.tsx lines 169-189): on an `unlink`
event an existing remote file is removed; otherwise a truthy content is
written to the existing file or a new remote file is created (the remote
store assigns an opaque id to a created file, modelled here by its name).
An empty-string content is falsy in the JS guard and is a no-op. -/
def updateFramerFile (files : List CodeFile) (change : LocalFileChange) :
    List RemoteOp × List CodeFile :=
  let existingFile := files.find? (fun f => f.name == change.path)
  if change.type = ChangeKind.unlink then
    match existingFile with
    | some f => ([RemoteOp.remove f.id], files.filter (fun g => g.id ≠ f.id))
    | none => ([], files)
  else
    match change.content with
    | some c =>
        if c = "" then ([], files)
        else
          match existingFile with
          | some f =>
              ([RemoteOp.setFileContent f.id c],
               files.map (fun g => if g.id = f.id then { g with content := c } else g))
          | none =>
              ([RemoteOp.createCodeFile change.path c], files ++ [⟨change.path, change.path, c⟩])
    | none => ([], files)

/-- The loop body of `syncLocalChangesToFramer`: apply each drained change
in order via `updateFramerFile`, accumulating the remote calls. -/
def applyChanges (files : List CodeFile) :
    List LocalFileChange → List RemoteOp × List CodeFile
  | [] => ([], files)
  | c :: rest =>
      let step := updateFramerFile files c
      let restResult := applyChanges step.2 rest
      (step.1 ++ restResult.1, restResult.2)

/-- Function `syncLocalChangesToFramer` (FileListItem.tsx lines 191-210): drains the
server's change queue via `getLocalChanges` (which clears it), returns
success immediately when it is empty, and otherwise processes every change
through `updateFramerFile`. -/
def syncLocalChangesToFramer (pending : List LocalFileChange)
    (files : List CodeFile) : SyncResult :=
  if pending.length = 0 then
    ⟨⟨StatusKind.success, none⟩, [], files, []⟩
  else
    let applied := applyChanges files pending
    ⟨⟨StatusKind.success, none⟩, applied.1, applied.2, []⟩

/-- Function `performSync` (FileListItem.tsx lines 267-298): unless `ignoreConflicts`
is set, run `checkForConflicts`, filter out conflicts whose `fileId` is in
`resolvedConflicts`, and if any unresolved conflict remains return the
conflict status without draining the queue or issuing any call; otherwise
fall through to `syncLocalChangesToFramer`.  No branch of this function
issues a local filesystem write. -/
def performSync (framerFiles : List CodeFile) (localResponse : Option (List CodeFile))
    (pending : List LocalFileChange) (resolvedConflicts : List ResolvedConflict)
    (ignoreConflicts : Bool) : SyncResult :=
  if ignoreConflicts = false then
    let conflictStatus := checkForConflicts framerFiles (getLocalFiles localResponse)
    let cs := conflictStatus.conflicts.getD []
    if cs.length > 0 then
      let unresolvedConflicts := cs.filter (fun conflict =>
        ! resolvedConflicts.any (fun resolved => resolved.fileId == conflict.fileId))
      if unresolvedConflicts.length > 0 then
        ⟨⟨conflictStatus.status, some unresolvedConflicts⟩, [], framerFiles, pending⟩
      else
        syncLocalChangesToFramer pending framerFiles
    else
      syncLocalChangesToFramer pending framerFiles
  else
    syncLocalChangesToFramer pending framerFiles

/-- Insertion into the JS `Map` built by
`new Map(files.map((f) => [f.name, f.content]))` in the `/sync-directory`
handler: a duplicate key keeps its position and takes the new value. -/
def jsMapInsert (m : List (String × String)) (kv : String × String) :
    List (String × String) :=
  if m.any (fun p => p.1 == kv.1) then
    m.map (fun p => if p.1 == kv.1 then (p.1, kv.2) else p)
  else
    m ++ [kv]

/-- The JS `Map` of the `/sync-directory` handler as an association list in
insertion order. -/
def jsMapOfList (l : List (String × String)) : List (String × String) :=
  l.foldl jsMapInsert []

/-- The `results` record of the `/sync-directory` handler
(src/server/index.ts lines 227-232). -/
structure SyncDirResults where
  skipped : List String
  updated : List String
  deleted : List String
  deriving DecidableEq

/-- The `/sync-directory` handler (src/server/index.ts lines 210-274):
for every existing local file whose name is in the Framer map with a truthy
content, the file is rewritten and recorded in `updated`; an existing file
absent from the map is left alone (never deleted); every map entry whose
name is not an existing file is written as a new file.  Returns the results
record and the log of local writes `(name, content)` issued. -/
def syncDirectory (existingFiles : List String) (files : List (String × String)) :
    SyncDirResults × List (String × String) :=
  let framerFiles := jsMapOfList files
  let writesExisting := existingFiles.filterMap (fun file =>
    match framerFiles.lookup file with
    | some framerContent =>
        if framerContent = "" then none
        else some (file, framerContent)
    | none => none)
  let writesNew := framerFiles.filter (fun p => ! existingFiles.contains p.1)
  (⟨[], writesExisting.map (fun p => p.1) ++ writesNew.map (fun p => p.1), []⟩,
   writesExisting ++ writesNew)

/-- Function `performTwoWaySync` (FileListItem.tsx lines 352-371): first drain and
apply local changes to Framer, then post the resulting Framer file list to
the server's `/sync-directory`.  `existingFiles` is the server's recursive
directory listing at the time of the request. -/
def performTwoWaySync (framerFiles : List CodeFile) (pending : List LocalFileChange)
    (existingFiles : List String) :
    SyncResult × SyncDirResults × List (String × String) :=
  let localSync := syncLocalChangesToFramer pending framerFiles
  let serverResult := syncDirectory existingFiles
    (localSync.files.map (fun f => (f.name, f.content)))
  (localSync, serverResult.1, serverResult.2)

/-- The server's mutable state relevant to the `/local-changes` endpoint:
`currentDirectory` and the `localChanges` queue (src/server/index.ts lines
111-122). -/
structure ServerQueue where
  currentDirectory : Option String
  localChanges : List LocalFileChange
  deriving DecidableEq

/-- The `/local-changes` handler (src/server/index.ts lines 199-207): with
no directory set it answers 400 and leaves the queue untouched (`none`);
otherwise it returns a copy of the queue and clears it in the same step. -/
def drainChanges (s : ServerQueue) : Option (List LocalFileChange) × ServerQueue :=
  match s.currentDirectory with
  | none => (none, s)
  | some _ => (some s.localChanges, { s with localChanges := [] })

/-- An event against the server queue: a chokidar watcher callback pushing
one change (src/server/index.ts lines 137-173), or a client drain request. -/
inductive QueueOp where
  | push (c : LocalFileChange)
  | drain
  deriving DecidableEq

/-- Run a schedule of pushes and drains against the server queue, returning
the final state and the list of batches the drains delivered (a drain
rejected with 400 delivers no batch). -/
def runQueue (s : ServerQueue) : List QueueOp → ServerQueue × List (List LocalFileChange)
  | [] => (s, [])
  | QueueOp.push c :: rest =>
      runQueue { s with localChanges := s.localChanges ++ [c] } rest
  | QueueOp.drain :: rest =>
      match (drainChanges s).1 with
      | none => runQueue (drainChanges s).2 rest
      | some batch =>
          let r := runQueue (drainChanges s).2 rest
          (r.1, batch :: r.2)

/-- The changes a schedule pushes, in order. -/
def pushesOf (ops : List QueueOp) : List LocalFileChange :=
  ops.filterMap (fun o =>
    match o with
    | QueueOp.push c => some c
    | QueueOp.drain => none)

/-- State of the polling scheduler: how many sync passes are currently in
flight and how many `performSync` invocations have been started.  Models
the environment of the `setInterval` callbacks in src/src/App.tsx lines
121-139 and src/unnamed/part_004 lines 294-372. -/
structure SchedState where
  inFlight : Nat
  invocations : Nat
  deriving DecidableEq

/-- A scheduler event: a timer tick firing the interval callback, or an
in-flight pass completing. -/
inductive SchedEvent where
  | tick
  | complete
  deriving DecidableEq

/-- One scheduler step.  The interval callbacks invoke the sync pass
unconditionally; the only early return in the pass callback is
`if (!state.localDirectory) return`.  There is no check of an in-flight
flag, so a tick with a directory set always starts a new invocation. -/
def schedStep (directory : Option String) (s : SchedState) : SchedEvent → SchedState
  | SchedEvent.tick =>
      match directory with
      | some _ => ⟨s.inFlight + 1, s.invocations + 1⟩
      | none => s
  | SchedEvent.complete => ⟨s.inFlight - 1, s.invocations⟩

/-- Run a schedule of ticks and completions. -/
def schedRun (directory : Option String) (s : SchedState)
    (events : List SchedEvent) : SchedState :=
  events.foldl (schedStep directory) s

/-- The ticks of a schedule. -/
def countTicks (events : List SchedEvent) : Nat :=
  (events.filter (fun e =>
    match e with
    | SchedEvent.tick => true
    | SchedEvent.complete => false)).length

/-- A JS string, modelled as its list of characters for the path helpers. -/
abbrev JSString := List Char

/-- Function `getLocalPathFromFramerName` (FileListItem.tsx lines 117-121): the
template string `${baseDir}/${name}`. -/
def getLocalPathFromFramerName (name : JSString) (baseDir : JSString) : JSString :=
  baseDir ++ '/' :: name

/-- JS `String.prototype.split` with a one-character separator. -/
def splitOnChar (c : Char) : JSString → List JSString
  | [] => [[]]
  | x :: xs =>
      match splitOnChar c xs with
      | [] => [[]]
      | h :: t => if x = c then [] :: h :: t else (x :: h) :: t

/-- The `arr.pop() || ""` step of `getFramerNameFromLocalPath`: the last
element of the split, with a falsy (empty) result replaced by `""`. -/
def jsPopOrEmpty (l : List JSString) : JSString :=
  match l.getLast? with
  | some s => if s = [] then [] else s
  | none => []

/-- Function `getFramerNameFromLocalPath` (FileListItem.tsx lines 123-126):
`path.split("/").pop() || ""`. -/
def getFramerNameFromLocalPath (path : JSString) : JSString :=
  jsPopOrEmpty (splitOnChar '/' path)

/-- Modelled from the claim's words for C10: the final path segment of a
name, the text after its last separator. -/
def finalSegment (name : JSString) : JSString :=
  ((splitOnChar '/' name).getLast?).getD []

/-! ### Helper lemmas -/

/-- The conflict list `performSync` filters when no resolution covers a
detected divergence; used to state the gate branch of `performSync`. -/
def unresolvedConflictsOf (framerFiles localFiles : List CodeFile)
    (resolved : List ResolvedConflict) : List Conflict :=
  ((checkForConflicts framerFiles localFiles).conflicts.getD []).filter
    (fun conflict => ! resolved.any (fun r => r.fileId == conflict.fileId))

theorem conflicts_checkForConflicts (framerFiles localFiles : List CodeFile) :
    (checkForConflicts framerFiles localFiles).conflicts
      = some (framerFiles.filterMap (fun framerFile =>
          match localFiles.find? (fun f => f.name == framerFile.name) with
          | some localFile =>
              if localFile.content ≠ framerFile.content then
                some ⟨framerFile.id, localFile.content, framerFile.content⟩
              else
                none
          | none => none)) := by
  simp [checkForConflicts]

theorem status_checkForConflicts_of_ne_nil (framerFiles localFiles : List CodeFile)
    (h : (checkForConflicts framerFiles localFiles).conflicts.getD [] ≠ []) :
    (checkForConflicts framerFiles localFiles).status = StatusKind.error := by
  simp only [checkForConflicts, Option.getD_some] at h ⊢
  rw [if_pos (by simpa [List.length_pos] using h)]

theorem performSync_gate (framerFiles : List CodeFile)
    (localResponse : Option (List CodeFile))
    (pending : List LocalFileChange) (resolved : List ResolvedConflict)
    (h : unresolvedConflictsOf framerFiles (getLocalFiles localResponse) resolved ≠ []) :
    performSync framerFiles localResponse pending resolved false
      = ⟨⟨StatusKind.error,
          some (unresolvedConflictsOf framerFiles (getLocalFiles localResponse) resolved)⟩,
         [], framerFiles, pending⟩ := by
  have hcs : (checkForConflicts framerFiles (getLocalFiles localResponse)).conflicts.getD []
      ≠ [] := by
    intro h0
    exact h (by simp [unresolvedConflictsOf, h0])
  have hstatus :=
    status_checkForConflicts_of_ne_nil framerFiles (getLocalFiles localResponse) hcs
  simp only [performSync]
  rw [if_pos trivial, if_pos (by simpa [List.length_pos] using hcs),
    if_pos (by simpa [unresolvedConflictsOf, List.length_pos] using h)]
  simp [unresolvedConflictsOf, hstatus]

theorem performSync_no_gate (framerFiles : List CodeFile)
    (localResponse : Option (List CodeFile))
    (pending : List LocalFileChange) (resolved : List ResolvedConflict)
    (h : unresolvedConflictsOf framerFiles (getLocalFiles localResponse) resolved = []) :
    performSync framerFiles localResponse pending resolved false
      = syncLocalChangesToFramer pending framerFiles := by
  simp only [performSync]
  rw [if_pos trivial]
  by_cases hcs :
      ((checkForConflicts framerFiles (getLocalFiles localResponse)).conflicts.getD []).length > 0
  · rw [if_pos hcs, if_neg]
    simp only [unresolvedConflictsOf] at h
    simp [h]
  · rw [if_neg hcs]

theorem conflicts_syncLocalChangesToFramer (pending : List LocalFileChange)
    (files : List CodeFile) :
    (syncLocalChangesToFramer pending files).status.conflicts = none := by
  unfold syncLocalChangesToFramer
  split <;> rfl

theorem performSync_ignore (framerFiles : List CodeFile)
    (localResponse : Option (List CodeFile)) (pending : List LocalFileChange)
    (resolved : List ResolvedConflict) :
    performSync framerFiles localResponse pending resolved true
      = syncLocalChangesToFramer pending framerFiles := by
  simp [performSync]

theorem mem_unresolvedConflictsOf (framerFiles localFiles : List CodeFile)
    (resolved : List ResolvedConflict) (ff lf : CodeFile)
    (hmem : ff ∈ framerFiles)
    (hfind : localFiles.find? (fun f => f.name == ff.name) = some lf)
    (hne : lf.content ≠ ff.content)
    (hres : ∀ r ∈ resolved, r.fileId ≠ ff.id) :
    Conflict.mk ff.id lf.content ff.content
      ∈ unresolvedConflictsOf framerFiles localFiles resolved := by
  have hdetect : Conflict.mk ff.id lf.content ff.content
      ∈ (checkForConflicts framerFiles localFiles).conflicts.getD [] := by
    rw [conflicts_checkForConflicts, Option.getD_some]
    exact List.mem_filterMap.mpr ⟨ff, hmem, by rw [hfind]; simp [hne]⟩
  refine List.mem_filter.mpr ⟨hdetect, ?_⟩
  simp only [Bool.not_eq_true', List.any_eq_false]
  intro r hr
  simpa using hres r hr

/-! ### Claims -/

/-- C1: with `ignoreConflicts = false`, a file present on both sides with
differing local and remote content and no recorded resolution makes the
pass return an error status whose conflict list carries that file's local
and remote content, while issuing no remote call and leaving the local
change queue (and hence the local side) untouched; `performSync` has no
branch that writes a local file. -/
theorem C1_conflict_no_data_loss (framerFiles localFiles : List CodeFile)
    (pending : List LocalFileChange) (resolved : List ResolvedConflict)
    (ff lf : CodeFile)
    (hmem : ff ∈ framerFiles)
    (hfind : localFiles.find? (fun f => f.name == ff.name) = some lf)
    (hne : lf.content ≠ ff.content)
    (hres : ∀ r ∈ resolved, r.fileId ≠ ff.id) :
    (performSync framerFiles (some localFiles) pending resolved false).status.status
        = StatusKind.error ∧
    Conflict.mk ff.id lf.content ff.content
      ∈ (performSync framerFiles (some localFiles) pending resolved false).status.conflicts.getD [] ∧
    (performSync framerFiles (some localFiles) pending resolved false).ops = [] ∧
    (performSync framerFiles (some localFiles) pending resolved false).pending = pending := by
  have hc := mem_unresolvedConflictsOf framerFiles localFiles resolved ff lf hmem hfind hne hres
  have hne' : unresolvedConflictsOf framerFiles (getLocalFiles (some localFiles)) resolved ≠ [] :=
    List.ne_nil_of_mem hc
  rw [performSync_gate framerFiles (some localFiles) pending resolved hne']
  exact ⟨rfl, by simpa [getLocalFiles] using hc, rfl, rfl⟩

/-- C1 witness: spec Scenario B — remote `a.ts="1"`, local `a.ts="2"`,
nothing resolved. -/
theorem C1_witness :
    ((⟨"f1", "a.ts", "1"⟩ : CodeFile) ∈ [(⟨"f1", "a.ts", "1"⟩ : CodeFile)] ∧
     [(⟨"l1", "a.ts", "2"⟩ : CodeFile)].find?
        (fun f => f.name == (⟨"f1", "a.ts", "1"⟩ : CodeFile).name)
        = some ⟨"l1", "a.ts", "2"⟩ ∧
     ("2" : String) ≠ "1" ∧
     (∀ r ∈ ([] : List ResolvedConflict), r.fileId ≠ "f1")) ∧
    ((performSync [⟨"f1", "a.ts", "1"⟩] (some [⟨"l1", "a.ts", "2"⟩]) [] [] false).status.status
        = StatusKind.error ∧
     Conflict.mk "f1" "2" "1"
       ∈ (performSync [⟨"f1", "a.ts", "1"⟩] (some [⟨"l1", "a.ts", "2"⟩]) [] [] false).status.conflicts.getD [] ∧
     (performSync [⟨"f1", "a.ts", "1"⟩] (some [⟨"l1", "a.ts", "2"⟩]) [] [] false).ops = [] ∧
     (performSync [⟨"f1", "a.ts", "1"⟩] (some [⟨"l1", "a.ts", "2"⟩]) [] [] false).pending = []) :=
  ⟨⟨by decide, by decide, by decide, by simp⟩,
   C1_conflict_no_data_loss [⟨"f1", "a.ts", "1"⟩] [⟨"l1", "a.ts", "2"⟩] [] []
     ⟨"f1", "a.ts", "1"⟩ ⟨"l1", "a.ts", "2"⟩ (by decide) (by decide) (by decide) (by simp)⟩

/-- C6: resolution memory — whatever the input state, the conflict list a
pass returns never contains a conflict whose `fileId` appears in the
recorded `resolvedConflicts`: the gate branch filters resolved ids out, and
every other branch returns no conflict list at all. -/
theorem C6_resolution_memory (framerFiles : List CodeFile)
    (localResponse : Option (List CodeFile)) (pending : List LocalFileChange)
    (resolved : List ResolvedConflict) :
    ((performSync framerFiles localResponse pending resolved false).status.conflicts.getD
        []).all
      (fun conflict => resolved.all (fun r => ! (r.fileId == conflict.fileId))) = true := by
  by_cases hne : unresolvedConflictsOf framerFiles (getLocalFiles localResponse) resolved = []
  · rw [performSync_no_gate framerFiles localResponse pending resolved hne,
      conflicts_syncLocalChangesToFramer]
    rfl
  · rw [performSync_gate framerFiles localResponse pending resolved hne]
    simp only [Option.getD_some]
    rw [List.all_eq_true]
    intro conflict hc
    have hpred := (List.mem_filter.mp hc).2
    simp only [Bool.not_eq_true', List.any_eq_false] at hpred
    rw [List.all_eq_true]
    intro r hr
    simpa using hpred r hr

/-- C2 counterexample: with a directory set, three timer ticks with no pass
completing in between give three started `performSync` invocations and
three passes in flight — after the first tick a pass is in flight
(`inFlight = 1`), yet the two further ticks are not skipped, so the claim's
"exactly one invocation" fails (3 ≠ 1). -/
theorem C2_counterexample :
    (schedRun (some "dir") ⟨0, 0⟩ [SchedEvent.tick]).inFlight = 1 ∧
    (schedRun (some "dir") ⟨0, 0⟩
        [SchedEvent.tick, SchedEvent.tick, SchedEvent.tick]).invocations = 3 ∧
    (3 : Nat) ≠ 1 := by
  refine ⟨rfl, rfl, by decide⟩

/-- C2 amended: the interval callback has no in-flight guard — with a
directory set, every tick starts a `performSync` invocation and no tick is
ever skipped, so after any schedule the invocation count grows by exactly
the number of ticks, and ticks fired during an in-flight pass start
overlapping passes. -/
theorem C2_no_overlap_guard (d : String) (s : SchedState) (events : List SchedEvent) :
    (schedRun (some d) s events).invocations = s.invocations + countTicks events := by
  induction events generalizing s with
  | nil => simp [schedRun, countTicks]
  | cons e rest ih =>
      cases e with
      | tick =>
          simp only [schedRun, List.foldl_cons, schedStep] at *
          rw [ih]
          simp [countTicks, List.filter]
          omega
      | complete =>
          simp only [schedRun, List.foldl_cons, schedStep] at *
          rw [ih]
          simp [countTicks, List.filter]

/-- C3 counterexample: a local deletion of `b.ts`, present remotely with
content "1", is processed by the pass into the remote call
`existingFile.remove()` — a remote delete is issued and the remote copy is
removed, not restored. -/
theorem C3_counterexample :
    (syncLocalChangesToFramer [⟨ChangeKind.unlink, "b.ts", none⟩]
        [⟨"id1", "b.ts", "1"⟩]).ops = [RemoteOp.remove "id1"] ∧
    (syncLocalChangesToFramer [⟨ChangeKind.unlink, "b.ts", none⟩]
        [⟨"id1", "b.ts", "1"⟩]).files = [] := by
  refine ⟨rfl, rfl⟩

/-- C3 amended: processing a local deletion event for a file that exists in
the remote store issues a remote delete (`existingFile.remove()`) and drops
the file from the remote list; local deletions propagate to the remote
side rather than being overwritten back from the remote copy. -/
theorem C3_local_delete_deletes_remote (files : List CodeFile)
    (change : LocalFileChange) (f : CodeFile)
    (htype : change.type = ChangeKind.unlink)
    (hfind : files.find? (fun g => g.name == change.path) = some f) :
    updateFramerFile files change
      = ([RemoteOp.remove f.id], files.filter (fun g => g.id ≠ f.id)) := by
  simp only [updateFramerFile, hfind, htype]
  rw [if_pos trivial]

/-- C3 amended witness: deleting `b.ts` locally while `⟨"id1","b.ts","1"⟩`
exists remotely issues `remove "id1"`. -/
theorem C3_witness :
    ((⟨ChangeKind.unlink, "b.ts", none⟩ : LocalFileChange).type = ChangeKind.unlink ∧
     [(⟨"id1", "b.ts", "1"⟩ : CodeFile)].find?
        (fun g => g.name == (⟨ChangeKind.unlink, "b.ts", none⟩ : LocalFileChange).path)
        = some ⟨"id1", "b.ts", "1"⟩) ∧
    updateFramerFile [⟨"id1", "b.ts", "1"⟩] ⟨ChangeKind.unlink, "b.ts", none⟩
      = ([RemoteOp.remove "id1"],
         [(⟨"id1", "b.ts", "1"⟩ : CodeFile)].filter
           (fun g => g.id ≠ (⟨"id1", "b.ts", "1"⟩ : CodeFile).id)) :=
  ⟨⟨by decide, by decide⟩,
   C3_local_delete_deletes_remote [⟨"id1", "b.ts", "1"⟩] ⟨ChangeKind.unlink, "b.ts", none⟩
     ⟨"id1", "b.ts", "1"⟩ (by decide) (by decide)⟩

/-- C4 counterexample: `a.ts` diverges (local "2", remote "1") while the
non-conflicting `b.ts` has a pending local change to "y"; with no initial
resolution the pass returns only the `a.ts` conflict and issues no call at
all — in particular no `setFileContent` for the non-conflicting `b.ts`,
whose change stays queued, contradicting "non-conflicting names are still
propagated normally". -/
theorem C4_counterexample :
    performSync [⟨"fa", "a.ts", "1"⟩, ⟨"fb", "b.ts", "x"⟩]
        (some [⟨"la", "a.ts", "2"⟩, ⟨"lb", "b.ts", "x"⟩])
        [⟨ChangeKind.change, "b.ts", some "y"⟩] [] false
      = ⟨⟨StatusKind.error, some [⟨"fa", "2", "1"⟩]⟩, [],
         [⟨"fa", "a.ts", "1"⟩, ⟨"fb", "b.ts", "x"⟩],
         [⟨ChangeKind.change, "b.ts", some "y"⟩]⟩ ∧
    RemoteOp.setFileContent "fb" "y"
      ∉ (performSync [⟨"fa", "a.ts", "1"⟩, ⟨"fb", "b.ts", "x"⟩]
          (some [⟨"la", "a.ts", "2"⟩, ⟨"lb", "b.ts", "x"⟩])
          [⟨ChangeKind.change, "b.ts", some "y"⟩] [] false).ops := by
  refine ⟨by decide, by decide⟩

/-- C4 amended: when the pass detects a non-empty set of unresolved
conflicts (and `ignoreConflicts` is false), it returns the conflict outcome
and propagates nothing in either direction for any name — conflicting or
not: no remote call is issued and the pending local changes (including
those of non-conflicting files) are left queued for a later pass. -/
theorem C4_conflicts_block_whole_pass (framerFiles : List CodeFile)
    (localResponse : Option (List CodeFile)) (pending : List LocalFileChange)
    (resolved : List ResolvedConflict)
    (h : unresolvedConflictsOf framerFiles (getLocalFiles localResponse) resolved ≠ []) :
    performSync framerFiles localResponse pending resolved false
      = ⟨⟨StatusKind.error,
          some (unresolvedConflictsOf framerFiles (getLocalFiles localResponse) resolved)⟩,
         [], framerFiles, pending⟩ :=
  performSync_gate framerFiles localResponse pending resolved h

/-- C4 amended witness: the concrete divergent state of the counterexample
scenario, with distinct file names, taken through the amended theorem. -/
theorem C4_witness :
    unresolvedConflictsOf [⟨"g1", "c.ts", "1"⟩]
        (getLocalFiles (some [⟨"h1", "c.ts", "2"⟩])) [] ≠ [] ∧
    performSync [⟨"g1", "c.ts", "1"⟩] (some [⟨"h1", "c.ts", "2"⟩])
        [⟨ChangeKind.add, "d.ts", some "z"⟩] [] false
      = ⟨⟨StatusKind.error,
          some (unresolvedConflictsOf [⟨"g1", "c.ts", "1"⟩]
            (getLocalFiles (some [⟨"h1", "c.ts", "2"⟩])) [])⟩,
         [], [⟨"g1", "c.ts", "1"⟩], [⟨ChangeKind.add, "d.ts", some "z"⟩]⟩ :=
  ⟨by decide,
   C4_conflicts_block_whole_pass [⟨"g1", "c.ts", "1"⟩] (some [⟨"h1", "c.ts", "2"⟩])
     [⟨ChangeKind.add, "d.ts", some "z"⟩] [] (by decide)⟩

/-- C7 counterexample: spec Scenario D — after the initial resolution the
poll calls `performSync` with `ignoreConflicts = true`; with remote
`a.ts="3"`, local `a.ts="2"` and no drained local change, the pass issues
no remote call and the remote file keeps "3": the local content "2" is not
pushed, so "auto-resolves by keeping local and pushes it to remote" fails. -/
theorem C7_counterexample :
    performSync [⟨"f1", "a.ts", "3"⟩] (some [⟨"l1", "a.ts", "2"⟩]) [] [] true
      = ⟨⟨StatusKind.success, none⟩, [], [⟨"f1", "a.ts", "3"⟩], []⟩ ∧
    (⟨"f1", "a.ts", "3"⟩ : CodeFile) ≠ ⟨"f1", "a.ts", "2"⟩ := by
  refine ⟨by decide, by decide⟩

/-- C7 amended: after the initial resolution the pass runs with
`ignoreConflicts = true`, which skips conflict detection entirely: the
result never carries a conflict list (no prompt, no conflict-set entry),
and the pass is driven only by drained local change events — with an empty
drained batch it issues no remote call and leaves the remote files exactly
as they were, so a remote-side divergence is neither surfaced nor
auto-resolved until a local change event for the file arrives. -/
theorem C7_ignoreConflicts_skips_detection (framerFiles : List CodeFile)
    (localResponse : Option (List CodeFile)) (pending : List LocalFileChange)
    (resolved : List ResolvedConflict) :
    (performSync framerFiles localResponse pending resolved true).status.conflicts = none ∧
    performSync framerFiles localResponse [] resolved true
      = ⟨⟨StatusKind.success, none⟩, [], framerFiles, []⟩ := by
  constructor
  · rw [performSync_ignore, conflicts_syncLocalChangesToFramer]
  · rw [performSync_ignore]
    rfl

theorem jsMapInsert_of_not_mem (acc : List (String × String)) (kv : String × String)
    (h : kv.1 ∉ acc.map Prod.fst) : jsMapInsert acc kv = acc ++ [kv] := by
  have hany : ¬ (acc.any (fun p => p.1 == kv.1) = true) := by
    rw [List.any_eq_true]
    rintro ⟨p, hp, hpk⟩
    exact h (List.mem_map.mpr ⟨p, hp, by simpa using hpk⟩)
  unfold jsMapInsert
  rw [if_neg hany]

theorem foldl_jsMapInsert_of_nodup (l acc : List (String × String))
    (h : ((acc ++ l).map Prod.fst).Nodup) :
    l.foldl jsMapInsert acc = acc ++ l := by
  induction l generalizing acc with
  | nil => simp
  | cons kv rest ih =>
      have hk : kv.1 ∉ acc.map Prod.fst := by
        simp only [List.map_append, List.nodup_append] at h
        intro hmem
        exact h.2.2 hmem (by simp)
      rw [List.foldl_cons, jsMapInsert_of_not_mem acc kv hk,
        ih (acc ++ [kv]) (by simpa [List.append_assoc] using h)]
      simp

theorem jsMapOfList_of_nodup (l : List (String × String))
    (h : (l.map Prod.fst).Nodup) : jsMapOfList l = l := by
  simpa using foldl_jsMapInsert_of_nodup l [] (by simpa using h)

theorem lookup_ne_head (k : String) (kv : String × String)
    (rest : List (String × String)) (h : k ≠ kv.1) :
    List.lookup k (kv :: rest) = List.lookup k rest := by
  have hb : (k == kv.1) = false := by simpa using h
  simp [List.lookup, hb]

theorem filterMap_lookup_filter (files : List (String × String))
    (hnd : (files.map Prod.fst).Nodup) :
    (files.map Prod.fst).filterMap (fun file =>
        match files.lookup file with
        | some framerContent =>
            if framerContent = "" then none
            else some (file, framerContent)
        | none => none)
      = files.filter (fun p => ! (p.2 == "")) := by
  induction files with
  | nil => rfl
  | cons kv rest ih =>
      have hk : kv.1 ∉ rest.map Prod.fst := by
        simp only [List.map_cons, List.nodup_cons] at hnd
        exact hnd.1
      have hrest : (rest.map Prod.fst).Nodup := by
        simp only [List.map_cons, List.nodup_cons] at hnd
        exact hnd.2
      have hlook : List.lookup kv.1 (kv :: rest) = some kv.2 := by
        simp [List.lookup]
      have htail : (rest.map Prod.fst).filterMap (fun file =>
          match List.lookup file (kv :: rest) with
          | some framerContent =>
              if framerContent = "" then none
              else some (file, framerContent)
          | none => none)
          = rest.filter (fun p => ! (p.2 == "")) := by
        rw [List.filterMap_congr (g := fun file =>
          match List.lookup file rest with
          | some framerContent =>
              if framerContent = "" then none
              else some (file, framerContent)
          | none => none)]
        · exact ih hrest
        · intro k hkmem
          rw [lookup_ne_head k kv rest (by rintro rfl; exact hk hkmem)]
      simp only [List.map_cons, List.filterMap_cons, hlook]
      by_cases hv : kv.2 = ""
      · simp only [hv, if_pos rfl, htail, List.filter_cons]
        simp
      · rw [if_neg hv]
        simp only [htail, List.filter_cons]
        have : (! (kv.2 == "")) = true := by simpa using hv
        rw [this]
        simp

theorem filter_not_contains_self (files : List (String × String)) :
    files.filter (fun p => ! (files.map Prod.fst).contains p.1) = [] := by
  rw [List.filter_eq_nil_iff]
  intro p hp
  have hmem : p.1 ∈ files.map Prod.fst := List.mem_map.mpr ⟨p, hp, rfl⟩
  simp [hmem]

theorem syncDirectory_synced (files : List (String × String))
    (hnd : (files.map Prod.fst).Nodup) :
    syncDirectory (files.map Prod.fst) files
      = (⟨[], (files.filter (fun p => ! (p.2 == ""))).map Prod.fst, []⟩,
         files.filter (fun p => ! (p.2 == ""))) := by
  simp only [syncDirectory]
  rw [jsMapOfList_of_nodup files hnd, filterMap_lookup_filter files hnd,
    filter_not_contains_self files]
  simp

/-- C5 counterexample: directly after a successful pass that left the one
remote file `a.ts="1"` on disk, a second `/sync-directory` request with the
unchanged file list rewrites `a.ts` and reports it in `updated` — the
second pass performs a write and its updated set is not empty. -/
theorem C5_counterexample :
    (syncDirectory ["a.ts"] [("a.ts", "1")]).1.updated = ["a.ts"] ∧
    (syncDirectory ["a.ts"] [("a.ts", "1")]).2 = [("a.ts", "1")] ∧
    (["a.ts"] : List String) ≠ [] := by
  refine ⟨rfl, rfl, by decide⟩

/-- C5 amended: with no intervening change (empty drained batch, local
listing equal to the remote names), a second pass leaves the remote file
list — and hence the rebuilt mapping list — identical and issues no remote
call, but it is not zero-write: the server rewrites every file present on
both sides whose content is truthy, and its `updated` set is exactly those
names (empty only when every such file has empty content). -/
theorem C5_second_pass_rewrites (framerFiles : List CodeFile)
    (hnd : ((framerFiles.map (fun f => (f.name, f.content))).map Prod.fst).Nodup) :
    performTwoWaySync framerFiles [] (framerFiles.map CodeFile.name)
      = (⟨⟨StatusKind.success, none⟩, [], framerFiles, []⟩,
         ⟨[], ((framerFiles.map (fun f => (f.name, f.content))).filter
             (fun p => ! (p.2 == ""))).map Prod.fst, []⟩,
         (framerFiles.map (fun f => (f.name, f.content))).filter
           (fun p => ! (p.2 == ""))) := by
  have hnames : framerFiles.map CodeFile.name
      = (framerFiles.map (fun f => (f.name, f.content))).map Prod.fst := by
    simp
  have hlocal : syncLocalChangesToFramer [] framerFiles
      = ⟨⟨StatusKind.success, none⟩, [], framerFiles, []⟩ := rfl
  simp only [performTwoWaySync, hlocal]
  rw [hnames, syncDirectory_synced (framerFiles.map (fun f => (f.name, f.content))) hnd]

/-- C5 amended witness: one remote file `a.ts="1"` in the synced state. -/
theorem C5_witness :
    (([(⟨"f1", "a.ts", "1"⟩ : CodeFile)].map
        (fun f => (f.name, f.content))).map Prod.fst).Nodup ∧
    performTwoWaySync [⟨"f1", "a.ts", "1"⟩] []
        ([(⟨"f1", "a.ts", "1"⟩ : CodeFile)].map CodeFile.name)
      = (⟨⟨StatusKind.success, none⟩, [], [⟨"f1", "a.ts", "1"⟩], []⟩,
         ⟨[], (([(⟨"f1", "a.ts", "1"⟩ : CodeFile)].map
             (fun f => (f.name, f.content))).filter
             (fun p => ! (p.2 == ""))).map Prod.fst, []⟩,
         ([(⟨"f1", "a.ts", "1"⟩ : CodeFile)].map
           (fun f => (f.name, f.content))).filter (fun p => ! (p.2 == ""))) :=
  ⟨by decide, C5_second_pass_rewrites [⟨"f1", "a.ts", "1"⟩] (by decide)⟩

theorem runQueue_conservation (ops : List QueueOp) :
    ∀ (s : ServerQueue) (d : String), s.currentDirectory = some d →
      (runQueue s ops).2.flatten ++ (runQueue s ops).1.localChanges
        = s.localChanges ++ pushesOf ops := by
  induction ops with
  | nil => intro s d _; simp [runQueue, pushesOf]
  | cons op rest ih =>
      intro s d h
      cases op with
      | push c =>
          have := ih { s with localChanges := s.localChanges ++ [c] } d h
          simp only [runQueue, pushesOf, List.filterMap_cons] at *
          rw [this]
          simp
      | drain =>
          have := ih { s with localChanges := [] } d h
          simp only [runQueue, drainChanges, h, pushesOf, List.filterMap_cons] at *
          rw [List.flatten_cons, List.append_assoc, this]
          simp

/-- C8: draining is atomic and batches are disjoint — with a directory set,
over any schedule of watcher pushes and drain requests the concatenation of
all delivered batches followed by the remaining queue equals the initial
queue followed by the pushed events in order (no event is duplicated,
dropped, or reordered), and two consecutive drains with no intervening push
deliver the full pending batch and then the empty batch. -/
theorem C8_drain_atomic (d : String) (s : ServerQueue) (ops : List QueueOp)
    (h : s.currentDirectory = some d) :
    ((runQueue s ops).2.flatten ++ (runQueue s ops).1.localChanges
        = s.localChanges ++ pushesOf ops) ∧
    (runQueue s [QueueOp.drain, QueueOp.drain]).2 = [s.localChanges, []] := by
  refine ⟨runQueue_conservation ops s d h, ?_⟩
  simp [runQueue, drainChanges, h]

/-- C8 witness: a queue holding one change, then one more pushed and two
drains — the batches are the pending pair and then nothing. -/
theorem C8_witness :
    ((⟨some "dir", [⟨ChangeKind.add, "x.ts", some "1"⟩]⟩ : ServerQueue).currentDirectory
        = some "dir") ∧
    ((runQueue ⟨some "dir", [⟨ChangeKind.add, "x.ts", some "1"⟩]⟩
        [QueueOp.push ⟨ChangeKind.change, "y.ts", some "2"⟩, QueueOp.drain,
         QueueOp.drain]).2.flatten
      ++ (runQueue ⟨some "dir", [⟨ChangeKind.add, "x.ts", some "1"⟩]⟩
        [QueueOp.push ⟨ChangeKind.change, "y.ts", some "2"⟩, QueueOp.drain,
         QueueOp.drain]).1.localChanges
      = [⟨ChangeKind.add, "x.ts", some "1"⟩]
        ++ pushesOf [QueueOp.push ⟨ChangeKind.change, "y.ts", some "2"⟩, QueueOp.drain,
          QueueOp.drain]) ∧
    (runQueue ⟨some "dir", [⟨ChangeKind.add, "x.ts", some "1"⟩]⟩
        [QueueOp.drain, QueueOp.drain]).2
      = [[⟨ChangeKind.add, "x.ts", some "1"⟩], []] :=
  ⟨rfl,
   (C8_drain_atomic "dir" ⟨some "dir", [⟨ChangeKind.add, "x.ts", some "1"⟩]⟩
      [QueueOp.push ⟨ChangeKind.change, "y.ts", some "2"⟩, QueueOp.drain, QueueOp.drain]
      rfl).1,
   (C8_drain_atomic "dir" ⟨some "dir", [⟨ChangeKind.add, "x.ts", some "1"⟩]⟩
      [QueueOp.push ⟨ChangeKind.change, "y.ts", some "2"⟩, QueueOp.drain, QueueOp.drain]
      rfl).2⟩

/-- C9: when the request listing local files fails, `getLocalFiles` returns
the empty list, `checkForConflicts` then reports success with an empty
conflict list, and `performSync` — its gate thereby bypassed — proceeds to
drain and propagate the pending local changes exactly as an unguarded sync
would, even though the local state is unknown. -/
theorem C9_failed_listing_bypasses_gate (framerFiles : List CodeFile)
    (pending : List LocalFileChange) (resolved : List ResolvedConflict) :
    getLocalFiles none = [] ∧
    checkForConflicts framerFiles [] = ⟨StatusKind.success, some []⟩ ∧
    performSync framerFiles none pending resolved false
      = syncLocalChangesToFramer pending framerFiles := by
  have hempty : framerFiles.filterMap (fun framerFile =>
      match ([] : List CodeFile).find? (fun f => f.name == framerFile.name) with
      | some localFile =>
          if localFile.content ≠ framerFile.content then
            some (⟨framerFile.id, localFile.content, framerFile.content⟩ : Conflict)
          else
            none
      | none => none) = [] := by
    rw [List.filterMap_eq_nil_iff]
    intro ff _
    rfl
  constructor
  · rfl
  constructor
  · simp only [checkForConflicts, hempty]
    rfl
  · apply performSync_no_gate
    simp only [unresolvedConflictsOf, getLocalFiles, conflicts_checkForConflicts, hempty]
    rfl

theorem splitOnChar_ne_nil (c : Char) (s : JSString) : splitOnChar c s ≠ [] := by
  induction s with
  | nil => simp [splitOnChar]
  | cons x xs ih =>
      simp only [splitOnChar]
      cases hs : splitOnChar c xs with
      | nil => simp
      | cons h t =>
          by_cases hx : x = c
          · simp [hx]
          · simp [hx]

theorem two_le_length_splitOnChar (c : Char) (ys : JSString) :
    ∀ xs : JSString, 2 ≤ (splitOnChar c (xs ++ c :: ys)).length := by
  intro xs
  induction xs with
  | nil =>
      simp only [List.nil_append, splitOnChar]
      cases hs : splitOnChar c ys with
      | nil => exact absurd hs (splitOnChar_ne_nil c ys)
      | cons h t => simp
  | cons x xs ih =>
      simp only [List.cons_append, splitOnChar]
      cases hs : splitOnChar c (xs ++ c :: ys) with
      | nil => exact absurd hs (splitOnChar_ne_nil c (xs ++ c :: ys))
      | cons h t =>
          rw [hs] at ih
          by_cases hx : x = c
          · simp [hx]
          · simp only [hx, if_false]
            simpa using ih

theorem getLast?_splitOnChar_append (c : Char) (ys : JSString) :
    ∀ xs : JSString,
      (splitOnChar c (xs ++ c :: ys)).getLast? = (splitOnChar c ys).getLast? := by
  intro xs
  induction xs with
  | nil =>
      simp only [List.nil_append, splitOnChar]
      cases hs : splitOnChar c ys with
      | nil => exact absurd hs (splitOnChar_ne_nil c ys)
      | cons h t => simp [List.getLast?_cons_cons]
  | cons x xs ih =>
      simp only [List.cons_append, splitOnChar]
      cases hs : splitOnChar c (xs ++ c :: ys) with
      | nil => exact absurd hs (splitOnChar_ne_nil c (xs ++ c :: ys))
      | cons h t =>
          rw [hs] at ih
          have hlen := two_le_length_splitOnChar c ys xs
          rw [hs] at hlen
          cases t with
          | nil => simp at hlen
          | cons t0 ts =>
              by_cases hx : x = c
              · simpa [hx, List.getLast?_cons_cons] using ih
              · simpa [hx, List.getLast?_cons_cons] using ih

theorem splitOnChar_of_not_mem (c : Char) (s : JSString) (h : c ∉ s) :
    splitOnChar c s = [s] := by
  induction s with
  | nil => rfl
  | cons x xs ih =>
      have hx : x ≠ c := by
        intro hxc
        exact h (by simp [hxc])
      have hxs : c ∉ xs := fun hmem => h (List.mem_cons_of_mem x hmem)
      simp [splitOnChar, ih hxs, hx]

theorem not_mem_of_mem_splitOnChar (c : Char) (s : JSString) :
    ∀ t ∈ splitOnChar c s, c ∉ t := by
  induction s with
  | nil =>
      intro t ht
      simp only [splitOnChar, List.mem_singleton] at ht
      simp [ht]
  | cons x xs ih =>
      intro t ht
      cases hs : splitOnChar c xs with
      | nil => exact absurd hs (splitOnChar_ne_nil c xs)
      | cons h0 t0 =>
          rw [hs] at ih
          have ht' : t ∈ if x = c then [] :: h0 :: t0 else (x :: h0) :: t0 := by
            simpa only [splitOnChar, hs] using ht
          by_cases hx : x = c
          · rw [if_pos hx] at ht'
            rcases List.mem_cons.mp ht' with h1 | h1
            · simp [h1]
            · exact ih t h1
          · rw [if_neg hx] at ht'
            rcases List.mem_cons.mp ht' with h1 | h1
            · subst h1
              intro hmem
              rcases List.mem_cons.mp hmem with h2 | h2
              · exact hx h2.symm
              · exact ih h0 (by simp) h2
            · exact ih t (List.mem_cons_of_mem h0 h1)

theorem jsPopOrEmpty_eq_getD (l : List JSString) :
    jsPopOrEmpty l = (l.getLast?).getD [] := by
  unfold jsPopOrEmpty
  cases hl : l.getLast? with
  | none => rfl
  | some s =>
      by_cases hs : s = []
      · simp [hs]
      · simp [hs]

theorem roundTrip_eq_finalSegment (dir name : JSString) :
    getFramerNameFromLocalPath (getLocalPathFromFramerName name dir)
      = finalSegment name := by
  unfold getFramerNameFromLocalPath getLocalPathFromFramerName finalSegment
  rw [jsPopOrEmpty_eq_getD, getLast?_splitOnChar_append]

/-- C10: the name-to-path round trip — for any base directory, a name with
no separator comes back unchanged from
`getFramerNameFromLocalPath (getLocalPathFromFramerName name dir)`, while a
name containing a separator comes back as only its final path segment,
which loses the subdirectory prefix (the result differs from the name). -/
theorem C10_roundtrip_flat_only (dir name : JSString) :
    ('/' ∉ name →
      getFramerNameFromLocalPath (getLocalPathFromFramerName name dir) = name) ∧
    ('/' ∈ name →
      getFramerNameFromLocalPath (getLocalPathFromFramerName name dir)
          = finalSegment name ∧
      getFramerNameFromLocalPath (getLocalPathFromFramerName name dir) ≠ name) := by
  have hrt := roundTrip_eq_finalSegment dir name
  constructor
  · intro h
    rw [hrt]
    unfold finalSegment
    rw [splitOnChar_of_not_mem '/' name h]
    rfl
  · intro h
    refine ⟨hrt, ?_⟩
    rw [hrt]
    intro heq
    cases hl : (splitOnChar '/' name).getLast? with
    | none =>
        exact splitOnChar_ne_nil '/' name (by simpa using hl)
    | some t =>
        have htm : t ∈ splitOnChar '/' name := by
          rcases List.mem_getLast?_eq_getLast (by simp [hl] : t ∈ (splitOnChar '/' name).getLast?)
            with ⟨hne, hT⟩
          rw [hT]
          exact List.getLast_mem hne
        have hnot := not_mem_of_mem_splitOnChar '/' name t htm
        unfold finalSegment at heq
        rw [hl] at heq
        simp only [Option.getD_some] at heq
        rw [heq] at hnot
        exact hnot h

/-- C10 witness: with base directory "dir", the flat name "a.ts" round
trips to itself, and "sub/b.ts" round trips to its final segment "b.ts",
not to itself. -/
theorem C10_witness :
    (('/' ∉ ("a.ts".data : JSString)) ∧
      getFramerNameFromLocalPath
          (getLocalPathFromFramerName "a.ts".data "dir".data) = "a.ts".data) ∧
    (('/' ∈ ("sub/b.ts".data : JSString)) ∧
      getFramerNameFromLocalPath
          (getLocalPathFromFramerName "sub/b.ts".data "dir".data)
        = finalSegment "sub/b.ts".data ∧
      getFramerNameFromLocalPath
          (getLocalPathFromFramerName "sub/b.ts".data "dir".data) ≠ "sub/b.ts".data) :=
  ⟨⟨by decide, (C10_roundtrip_flat_only "dir".data "a.ts".data).1 (by decide)⟩,
   ⟨by decide, (C10_roundtrip_flat_only "dir".data "sub/b.ts".data).2 (by decide)⟩⟩

end CodeSync
